import Mathlib

/-!
Verification development for the AddressBase Premium CSV ingestion tool
(`AddressBase.py` and `BuildAddressBaseTables.py`).

The embedding models:
* the record-type catalog (`CreateRecordTypes` / class `RecordType`), with each
  SQLAlchemy mapped class's column list transcribed in declaration order, as
  `inspect(mapping).attrs` enumerates it (the `id`, `CLASS_TYPE` and `ABC`
  attributes are excluded by `RecordType.myfields` and the `^[A-Z][A-Z_]*$`
  attribute-name filter);
* `CreateObject`, which builds a mapped object by `setattr`-ing each zipped
  (field, value) pair, storing `None` for falsy (empty) strings and leaving
  unzipped trailing attributes unset (hence NULL);
* the import ledger (`File.__init__` / `File.Update`), with SQLAlchemy
  commits made explicit: `File.__init__` commits the new row before it marks
  the superseded rows, and those marks are only written by the next commit;
* the per-file ingestion loop of `CreateAddressBaseTables`, including the
  uncaught `KeyError` on an unregistered discriminator (`RecTypes[row[0]]`),
  the uncaught `IndexError` on a blank CSV line (`csv.reader` yields `[]`),
  and the uncaught `NameError` when `records += j+1` runs with `j` unbound
  (the loop variable `j` persists across files in Python, so it is threaded
  through the run as an `Option Nat`).

A file's content is taken as the list of rows produced by `csv.reader`: each
line is a `List String` of its comma-separated fields, a blank line is `[]`.
Database values are kept as the strings the Python layer assigns; any type
conversion happens in the storage backend, outside this program.
-/

/-- Column types of the SQLAlchemy mapped classes, as declared in
`AddressBase.py`. -/
inductive ColTy where
  | intCol : ColTy
  | bigIntCol : ColTy
  | strCol : Nat → ColTy
  | dateCol : ColTy
  | timeCol : ColTy
  | dateTimeCol : ColTy
  | numericCol : Nat → Nat → ColTy
deriving DecidableEq

/-- One mapped column: its attribute name and its declared column type. -/
structure FieldSpec where
  name : String
  ty : ColTy
deriving DecidableEq

/-- Columns of class `Header` (type 10 records), in declaration order. -/
def headerSpecs : List FieldSpec :=
  [⟨"CUSTODIAN_NAME", .strCol 40⟩,
   ⟨"LOCAL_CUSTODIAN_CODE", .intCol⟩,
   ⟨"PROCESS_DATE", .dateCol⟩,
   ⟨"VOLUME_NUMBER", .intCol⟩,
   ⟨"ENTRY_DATE", .dateCol⟩,
   ⟨"TIME_STAMP", .timeCol⟩,
   ⟨"VERSION", .strCol 7⟩,
   ⟨"FILE_TYPE", .strCol 1⟩]

/-- Columns of class `Street` (type 11 records), in declaration order. -/
def streetSpecs : List FieldSpec :=
  [⟨"CHANGE_TYPE", .strCol 1⟩,
   ⟨"PRO_ORDER", .bigIntCol⟩,
   ⟨"USRN", .bigIntCol⟩,
   ⟨"RECORD_TYPE", .strCol 1⟩,
   ⟨"SWA_ORG_REF_NAMING", .intCol⟩,
   ⟨"STATE", .strCol 1⟩,
   ⟨"STATE_DATE", .dateCol⟩,
   ⟨"STREET_SURFACE", .strCol 1⟩,
   ⟨"STREET_CLASSIFICATION", .strCol 2⟩,
   ⟨"VERSION", .intCol⟩,
   ⟨"STREET_START_DATE", .dateCol⟩,
   ⟨"STREET_END_DATE", .dateCol⟩,
   ⟨"LAST_UPDATE_DATE", .dateCol⟩,
   ⟨"RECORD_ENTRY_DATE", .dateCol⟩,
   ⟨"STREET_START_X", .numericCol 8 2⟩,
   ⟨"STREET_START_Y", .numericCol 9 2⟩,
   ⟨"STREET_START_LAT", .numericCol 9 7⟩,
   ⟨"STREET_START_LONG", .numericCol 8 7⟩,
   ⟨"STREET_END_X", .numericCol 8 2⟩,
   ⟨"STREET_END_Y", .numericCol 9 2⟩,
   ⟨"STREET_END_LAT", .numericCol 9 7⟩,
   ⟨"STREET_END_LONG", .numericCol 8 7⟩,
   ⟨"STREET_TOLERANCE", .intCol⟩]

/-- Columns of class `StreetDescriptor` (type 15 records). -/
def streetDescriptorSpecs : List FieldSpec :=
  [⟨"CHANGE_TYPE", .strCol 1⟩,
   ⟨"PRO_ORDER", .bigIntCol⟩,
   ⟨"USRN", .bigIntCol⟩,
   ⟨"STREET_DESCRIPTION", .strCol 100⟩,
   ⟨"LOCALITY_NAME", .strCol 35⟩,
   ⟨"TOWN_NAME", .strCol 30⟩,
   ⟨"ADMINISTRATIVE_AREA", .strCol 30⟩,
   ⟨"LANGUAGE", .strCol 3⟩,
   ⟨"START_DATE", .dateCol⟩,
   ⟨"END_DATE", .dateCol⟩,
   ⟨"LAST_UPDATE_DATE", .dateCol⟩,
   ⟨"ENTRY_DATE", .dateCol⟩]

/-- Columns of class `BLPU` (type 21 records). -/
def blpuSpecs : List FieldSpec :=
  [⟨"CHANGE_TYPE", .strCol 1⟩,
   ⟨"PRO_ORDER", .bigIntCol⟩,
   ⟨"UPRN", .bigIntCol⟩,
   ⟨"LOGICAL_STATUS", .strCol 1⟩,
   ⟨"BLPU_STATE", .strCol 1⟩,
   ⟨"BLPU_STATE_DATE", .dateCol⟩,
   ⟨"PARENT_UPRN", .bigIntCol⟩,
   ⟨"X_COORDINATE", .numericCol 8 2⟩,
   ⟨"Y_COORDINATE", .numericCol 9 2⟩,
   ⟨"LATITUDE", .numericCol 9 7⟩,
   ⟨"LONGITUDE", .numericCol 8 7⟩,
   ⟨"RPC", .strCol 1⟩,
   ⟨"LOCAL_CUSTODIAN_CODE", .intCol⟩,
   ⟨"COUNTRY", .strCol 1⟩,
   ⟨"START_DATE", .dateCol⟩,
   ⟨"END_DATE", .dateCol⟩,
   ⟨"LAST_UPDATE_DATE", .dateCol⟩,
   ⟨"ENTRY_DATE", .dateCol⟩,
   ⟨"ADDRESSBASE_POSTAL", .strCol 1⟩,
   ⟨"POSTCODE_LOCATOR", .strCol 8⟩,
   ⟨"MULTI_OCC_COUNT", .bigIntCol⟩]

/-- Columns of class `ApplicationCrossReference` (type 23 records). -/
def appXRefSpecs : List FieldSpec :=
  [⟨"CHANGE_TYPE", .strCol 1⟩,
   ⟨"PRO_ORDER", .bigIntCol⟩,
   ⟨"UPRN", .bigIntCol⟩,
   ⟨"XREF_KEY", .strCol 14⟩,
   ⟨"CROSS_REFERENCE", .strCol 50⟩,
   ⟨"VERSION", .intCol⟩,
   ⟨"SOURCE", .strCol 6⟩,
   ⟨"START_DATE", .dateCol⟩,
   ⟨"END_DATE", .dateCol⟩,
   ⟨"LAST_UPDATE_DATE", .dateCol⟩,
   ⟨"ENTRY_DATE", .dateCol⟩]

/-- Columns of class `LPI` (type 24 records). -/
def lpiSpecs : List FieldSpec :=
  [⟨"CHANGE_TYPE", .strCol 1⟩,
   ⟨"PRO_ORDER", .bigIntCol⟩,
   ⟨"UPRN", .bigIntCol⟩,
   ⟨"LPI_KEY", .strCol 14⟩,
   ⟨"LANGUAGE", .strCol 3⟩,
   ⟨"LOGICAL_STATUS", .strCol 1⟩,
   ⟨"START_DATE", .dateCol⟩,
   ⟨"END_DATE", .dateCol⟩,
   ⟨"LAST_UPDATE_DATE", .dateCol⟩,
   ⟨"ENTRY_DATE", .dateCol⟩,
   ⟨"SAO_START_NUMBER", .intCol⟩,
   ⟨"SAO_START_SUFFIX", .strCol 2⟩,
   ⟨"SAO_END_NUMBER", .bigIntCol⟩,
   ⟨"SAO_END_SUFFIX", .strCol 2⟩,
   ⟨"SAO_TEXT", .strCol 90⟩,
   ⟨"PAO_START_NUMBER", .intCol⟩,
   ⟨"PAO_START_SUFFIX", .strCol 2⟩,
   ⟨"PAO_END_NUMBER", .intCol⟩,
   ⟨"PAO_END_SUFFIX", .strCol 2⟩,
   ⟨"PAO_TEXT", .strCol 90⟩,
   ⟨"USRN", .intCol⟩,
   ⟨"USRN_MATCH_INDICATOR", .strCol 1⟩,
   ⟨"AREA_NAME", .strCol 40⟩,
   ⟨"LEVEL", .strCol 30⟩,
   ⟨"OFFICIAL_FLAG", .strCol 1⟩]

/-- Columns of class `DeliveryPointAddress` (type 28 records). -/
def dpaSpecs : List FieldSpec :=
  [⟨"CHANGE_TYPE", .strCol 1⟩,
   ⟨"PRO_ORDER", .bigIntCol⟩,
   ⟨"UPRN", .bigIntCol⟩,
   ⟨"UDPRN", .bigIntCol⟩,
   ⟨"ORGANISATION_NAME", .strCol 60⟩,
   ⟨"DEPARTMENT_NAME", .strCol 60⟩,
   ⟨"SUB_BUILDING_NAME", .strCol 30⟩,
   ⟨"BUILDING_NAME", .strCol 50⟩,
   ⟨"BUILDING_NUMBER", .intCol⟩,
   ⟨"DEPENDENT_THOROUGHFARE", .strCol 80⟩,
   ⟨"THOROUGHFARE", .strCol 80⟩,
   ⟨"DOUBLE_DEPENDENT_LOCALITY", .strCol 35⟩,
   ⟨"DEPENDENT_LOCALITY", .strCol 35⟩,
   ⟨"POST_TOWN", .strCol 30⟩,
   ⟨"POSTCODE", .strCol 8⟩,
   ⟨"POSTCODE_TYPE", .strCol 1⟩,
   ⟨"DELIVERY_POINT_SUFFIX", .strCol 2⟩,
   ⟨"WELSH_DEPENDENT_THOROUGHFARE", .strCol 80⟩,
   ⟨"WELSH_THOROUGHFARE", .strCol 80⟩,
   ⟨"WELSH_DOUBLE_DEPENDENT_LOCALITY", .strCol 35⟩,
   ⟨"WELSH_DEPENDENT_LOCALITY", .strCol 35⟩,
   ⟨"WELSH_POST_TOWN", .strCol 30⟩,
   ⟨"PO_BOX_NUMBER", .strCol 6⟩,
   ⟨"PROCESS_DATE", .dateCol⟩,
   ⟨"START_DATE", .dateCol⟩,
   ⟨"END_DATE", .dateCol⟩,
   ⟨"LAST_UPDATE_DATE", .dateCol⟩,
   ⟨"ENTRY_DATE", .dateCol⟩]

/-- Columns of class `MetaData` (type 29 records). -/
def metaDataSpecs : List FieldSpec :=
  [⟨"GAZ_NAME", .strCol 60⟩,
   ⟨"GAZ_SCOPE", .strCol 60⟩,
   ⟨"TER_OF_USE", .strCol 60⟩,
   ⟨"LINKED_DATA", .strCol 100⟩,
   ⟨"GAZ_OWNER", .strCol 15⟩,
   ⟨"NGAZ_FREQ", .strCol 1⟩,
   ⟨"CUSTODIAN_NAME", .strCol 40⟩,
   ⟨"CUSTODIAN_UPRN", .bigIntCol⟩,
   ⟨"LOCAL_CUSTODIAN_CODE", .intCol⟩,
   ⟨"CO_ORD_SYSTEM", .strCol 40⟩,
   ⟨"CO_ORD_UNIT", .strCol 10⟩,
   ⟨"META_DATE", .dateCol⟩,
   ⟨"CLASS_SCHEME", .strCol 60⟩,
   ⟨"GAZ_DATE", .dateCol⟩,
   ⟨"LANGUAGE", .strCol 3⟩,
   ⟨"CHARACTER_SET", .strCol 30⟩]

/-- Columns of class `SuccessorCrossReference` (type 30 records). -/
def succXRefSpecs : List FieldSpec :=
  [⟨"CHANGE_TYPE", .strCol 1⟩,
   ⟨"PRO_ORDER", .bigIntCol⟩,
   ⟨"UPRN", .bigIntCol⟩,
   ⟨"SUCC_KEY", .strCol 14⟩,
   ⟨"START_DATE", .dateCol⟩,
   ⟨"END_DATE", .dateCol⟩,
   ⟨"LAST_UPDATE_DATE", .dateCol⟩,
   ⟨"ENTRY_DATE", .dateCol⟩,
   ⟨"SUCCESSOR", .bigIntCol⟩]

/-- Columns of class `Organisation` (type 31 records). -/
def organisationSpecs : List FieldSpec :=
  [⟨"CHANGE_TYPE", .strCol 1⟩,
   ⟨"PRO_ORDER", .bigIntCol⟩,
   ⟨"UPRN", .bigIntCol⟩,
   ⟨"ORG_KEY", .strCol 14⟩,
   ⟨"ORGANISATION", .strCol 100⟩,
   ⟨"LEGAL_NAME", .strCol 60⟩,
   ⟨"START_DATE", .dateCol⟩,
   ⟨"END_DATE", .dateCol⟩,
   ⟨"LAST_UPDATE_DATE", .dateCol⟩,
   ⟨"ENTRY_DATE", .dateCol⟩]

/-- Columns of class `Classification` (type 32 records). The own-use columns
`CLASS_TYPE` and `ABC` are listed in `RecordType.myfields` and therefore do
not appear in the record type's field list. -/
def classificationSpecs : List FieldSpec :=
  [⟨"CHANGE_TYPE", .strCol 1⟩,
   ⟨"PRO_ORDER", .bigIntCol⟩,
   ⟨"UPRN", .bigIntCol⟩,
   ⟨"CLASS_KEY", .strCol 14⟩,
   ⟨"CLASSIFICATION_CODE", .strCol 6⟩,
   ⟨"CLASS_SCHEME", .strCol 60⟩,
   ⟨"SCHEME_VERSION", .numericCol 2 1⟩,
   ⟨"START_DATE", .dateCol⟩,
   ⟨"END_DATE", .dateCol⟩,
   ⟨"LAST_UPDATE_DATE", .dateCol⟩,
   ⟨"ENTRY_DATE", .dateCol⟩]

/-- Columns of class `Trailer` (type 99 records). -/
def trailerSpecs : List FieldSpec :=
  [⟨"NEXT_VOLUME_NUMBER", .intCol⟩,
   ⟨"RECORD_COUNT", .bigIntCol⟩,
   ⟨"ENTRY_DATE", .dateCol⟩,
   ⟨"TIME_STAMP", .timeCol⟩]

/-- One entry of the record-type catalog, mirroring class `RecordType`:
display name, discriminator code (a string, not an int), the ordered field
list (derived from the mapped class's columns), whether a mapped class is
present (`rt.mapping` is truthy; always the case for the registered types),
and the `ignore` flag (passed as `False` for every registered type). -/
structure RecordType where
  name : String
  code : String
  specs : List FieldSpec
  hasMapping : Bool
  ignore : Bool
deriving DecidableEq

/-- Field-name list of a record type, as built by `RecordType.__init__` from
the mapped class's attributes. -/
def RecordType.fields (rt : RecordType) : List String :=
  rt.specs.map (fun s => s.name)

def headerRT : RecordType := ⟨"Header", "10", headerSpecs, true, false⟩

def streetRT : RecordType := ⟨"Street", "11", streetSpecs, true, false⟩

def streetDescriptorRT : RecordType :=
  ⟨"Street Descriptor", "15", streetDescriptorSpecs, true, false⟩

def blpuRT : RecordType := ⟨"BLPU", "21", blpuSpecs, true, false⟩

def appXRefRT : RecordType :=
  ⟨"Application Cross Reference", "23", appXRefSpecs, true, false⟩

def lpiRT : RecordType := ⟨"LPI", "24", lpiSpecs, true, false⟩

def dpaRT : RecordType :=
  ⟨"Delivery Point Address", "28", dpaSpecs, true, false⟩

def metaDataRT : RecordType := ⟨"MetaData", "29", metaDataSpecs, true, false⟩

def succXRefRT : RecordType :=
  ⟨"Successor Cross Reference", "30", succXRefSpecs, true, false⟩

def organisationRT : RecordType :=
  ⟨"Organisation", "31", organisationSpecs, true, false⟩

def classificationRT : RecordType :=
  ⟨"Classification", "32", classificationSpecs, true, false⟩

def trailerRT : RecordType := ⟨"Trailer", "99", trailerSpecs, true, false⟩

/-- The catalog rows of `CreateRecordTypes`, in source order (which is also
the insertion order of the returned dict). -/
def recTypesList : List RecordType :=
  [headerRT, streetRT, streetDescriptorRT, blpuRT, appXRefRT, lpiRT,
   dpaRT, metaDataRT, succXRefRT, organisationRT, classificationRT, trailerRT]

/-- Lookup in the `RecTypes` dict returned by `CreateRecordTypes`, keyed by
discriminator code. `none` models a `KeyError` on subscripting. -/
def RecTypes (d : String) : Option RecordType :=
  recTypesList.find? (fun rt => rt.code == d)

/-- The discriminator codes registered in the catalog, in dict key order. -/
def codes : List String :=
  recTypesList.map (fun rt => rt.code)

/-- The per-file counter dict, `{t: 0 for t in RecTypes}` plus an `Error`
key, kept as an association list in insertion order. -/
abbrev Counts := List (String × Nat)

/-- Reading `counts[k]` (the key is always present in the pipeline's use). -/
def lookupCount (c : Counts) (k : String) : Nat :=
  match c with
  | [] => 0
  | (k1, v) :: rest => if k1 = k then v else lookupCount rest k

/-- Whether a key is present in the counter dict. -/
def hasKey (c : Counts) (k : String) : Bool :=
  match c with
  | [] => false
  | (k1, _) :: rest => if k1 = k then true else hasKey rest k

/-- The statement `counts[k] += 1`. -/
def bump (c : Counts) (k : String) : Counts :=
  c.map (fun p => if p.1 = k then (p.1, p.2 + 1) else p)

/-- The initial counter dict of the per-file loop. -/
def initCounts : Counts :=
  codes.map (fun c => (c, 0)) ++ [("Error", 0)]

/-- Sum of the per-shape counters (every registered code, excluding the
`Error` key). -/
def sumShapes (c : Counts) : Nat :=
  (codes.map (fun k => lookupCount c k)).sum

/-- A typed record as `CreateObject` builds it: one value per attribute of
the mapped class, in field order.  `none` is an attribute left at NULL. -/
abbrev Obj := List (Option String)

/-- Embedding of `CreateObject(rt, rec)`.  When the record type has a mapping
and is not ignored, it instantiates the mapped class (all attributes unset,
hence NULL) and walks `zip(rt.fields, rec)`, storing the raw string when it
is truthy and `None` when it is the empty string; attributes beyond the zip
stay NULL and raw fields beyond the zip are dropped.  No type conversion
happens here — the string is assigned as-is and any coercion is the storage
backend's.  The `except KeyError` handler in the source encloses no dict
subscript and is dead code. -/
def CreateObject (rt : RecordType) (rec : List String) : Option Obj :=
  if rt.hasMapping && !rt.ignore then
    some ((List.range rt.specs.length).map (fun i =>
      match rec.get? i with
      | some v => if v = "" then none else some v
      | none => none))
  else
    none

/-- One line of a CSV file as `csv.reader` yields it: the list of its
fields.  A blank input line yields `[]`. -/
abbrev Row := List String

/-- A row whose first field subscripts the catalog without fault: it is
nonempty and its discriminator is registered. -/
def rowOk (r : Row) : Bool :=
  match r.head? with
  | none => false
  | some d => (RecTypes d).isSome

/-- The uncaught Python exceptions the per-file loop can raise:
`KeyError` from `RecTypes[row[0]]`, `IndexError` from `row[0]` on a blank
line, and `NameError` from `records += j+1` when `j` was never bound. -/
inductive Fault where
  | keyError : Fault
  | indexError : Fault
  | nameError : Fault
deriving DecidableEq

/-- The data carried by the field-count warning
`"Got {} fields for {} record at line {} of {}: {}"`: the line number
`j+1`, the record type's name, the actual data field count `len(row)-1`,
the file's basename, and the raw data fields `row[1:]`. -/
structure Diag where
  line : Nat
  shapeName : String
  got : Nat
  fname : String
  raw : List String
deriving DecidableEq

/-- A record pending persistence: its shape code and the built object. -/
abbrev PRec := String × Obj

/-- One row of the `files` ledger table (class `File`).  `createStart`
models the `CreateStart` column (defaulted to now on creation),
`createEnd` whether `CreateEnd` has been set, and `stored` the counter
columns written by `File.Update` (`Errors`, `Headers`, ..., `Trailers`),
kept as the copied counter dict. -/
structure FileRow where
  id : Nat
  fileName : String
  createStart : Bool
  createEnd : Bool
  supersededBy : Option Nat
  stored : Option Counts
deriving DecidableEq

/-- The committed database state: the ledger table and the persisted typed
records (tagged by shape code).  `nextFileId` models the autoincrement
primary key of the `files` table. -/
structure DB where
  files : List FileRow
  nextFileId : Nat
  recs : List PRec
deriving DecidableEq

def emptyDB : DB := ⟨[], 0, []⟩

/-- Database states reachable from an autoincrementing ledger: every ledger
row's id is below the next id to be assigned, and ids are pairwise
distinct. -/
def DB.wf (db : DB) : Prop :=
  (∀ r ∈ db.files, r.id < db.nextFileId) ∧
    (db.files.map (fun r => r.id)).Nodup

/-- The characters of a path after its last slash. -/
def baseChars (l : List Char) : List Char :=
  (l.reverse.takeWhile (fun ch => ch != '/')).reverse

/-- Embedding of `os.path.split(p)[1]`: the suffix of the path after its
last slash. -/
def basename (p : String) : String :=
  String.mk (baseChars p.data)

/-- The ledger rows that are current (not superseded). -/
def currentNames (db : DB) : List String :=
  (db.files.filter (fun r => r.supersededBy.isNone)).map (fun r => r.fileName)

/-- How many current ledger rows carry a given file name. -/
def currentCount (files : List FileRow) (name : String) : Nat :=
  (files.filter (fun r => r.fileName == name && r.supersededBy.isNone)).length

/-- Embedding of `File.__init__(name, session)`: query the current rows
sharing the name, add the new row (storing the basename) and commit it —
this commit is immediate — then mark each old row as superseded by the new
row's id.  Those marks live in the session only; they reach the database at
the next commit, so they are returned as the pending list of old ids.
Returns (committed database, new row's id, ids of rows pending
supersession). -/
def fileInit (name : String) (db : DB) : DB × Nat × List Nat :=
  (⟨db.files ++ [⟨db.nextFileId, basename name, true, false, none, none⟩],
    db.nextFileId + 1, db.recs⟩,
   db.nextFileId,
   (db.files.filter
     (fun r => r.fileName == name && r.supersededBy.isNone)).map (fun r => r.id))

/-- The ids `File.__init__` queries for supersession: the current rows whose
stored name equals the queried name. -/
def oldsOf (db : DB) (name : String) : List Nat :=
  (db.files.filter
    (fun r => r.fileName == name && r.supersededBy.isNone)).map (fun r => r.id)

/-- The ledger row `File.__init__` inserts. -/
def newRowOf (db : DB) (name : String) : FileRow :=
  ⟨db.nextFileId, basename name, true, false, none, none⟩

/-- The supersession mark on one row: rows queried by `File.__init__` (their
ids are in `olds`) get `SupersededBy = nid`, others are untouched. -/
def supersedeOne (olds : List Nat) (nid : Nat) (r : FileRow) : FileRow :=
  if olds.contains r.id then { r with supersededBy := some nid } else r

/-- Writing the pending supersession marks at commit time. -/
def applySupersede (files : List FileRow) (olds : List Nat) (nid : Nat) :
    List FileRow :=
  files.map (supersedeOne olds nid)

/-- The effect of `File.Update(counters, session)` on one row: the row being
finalized gets `CreateEnd` set and the counter dict copied into its counter
columns (the dict always carries the twelve shape keys and `Error`, which
are exactly the keys `Update` reads). -/
def updOne (fid : Nat) (counts : Counts) (r : FileRow) : FileRow :=
  if r.id = fid then { r with createEnd := true, stored := some counts }
  else r

/-- Embedding of `File.Update` over the ledger table. -/
def fileUpdate (files : List FileRow) (fid : Nat) (counts : Counts) :
    List FileRow :=
  files.map (updOne fid counts)

/-- The commits that end a successfully read file: `session.commit()` writes
the pending record adds and the pending supersession marks, then
`frec.Update(counts, session)` finalizes the ledger row and commits again. -/
def finalizeDB (db1 : DB) (fid : Nat) (olds : List Nat) (counts : Counts)
    (pending : List PRec) : DB :=
  ⟨fileUpdate (applySupersede db1.files olds fid) fid counts,
   db1.nextFileId, db1.recs ++ pending⟩

/-- Embedding of the loop `for j, row in enumerate(csv.reader(f))`.
Arguments after the row list: the current enumerate index, the value of the
Python variable `j` (`none` while unbound), the counter dict, the session's
pending record adds, and the warnings issued so far.  A blank row faults at
`row[0]` (`IndexError`); an unregistered discriminator faults at
`RecTypes[row[0]]` (`KeyError`).  Otherwise the field-count warning is
issued when `len(row) != len(rt.fields) + 1`, the shape's counter is
bumped, and the object built by `CreateObject` is added to the session. -/
def procLines (fname : String) :
    List Row → Nat → Option Nat → Counts → List PRec → List Diag →
    Except Fault (Counts × List PRec × List Diag × Option Nat)
  | [], _, j, counts, pending, diags => .ok (counts, pending, diags, j)
  | row :: rest, idx, _, counts, pending, diags =>
    match row.head? with
    | none => .error .indexError
    | some d =>
      match RecTypes d with
      | none => .error .keyError
      | some rt =>
        procLines fname rest (idx + 1) (some idx) (bump counts rt.code)
          (match CreateObject rt row.tail with
           | some o => pending ++ [(rt.code, o)]
           | none => pending)
          (if row.length ≠ rt.fields.length + 1 then
            diags ++ [⟨idx + 1, rt.name, row.length - 1, fname, row.tail⟩]
          else diags)

/-- Outcome of processing one non-skipped file: either the committed
database together with the final value of `j`, the `j+1` increment added to
`records`, and the warnings, or an uncaught fault together with the state
committed before it (the unfinalized ledger row from `File.__init__` is
already durable; the session's pending adds and supersession marks are
lost). -/
inductive FileResult where
  | ok : DB → Option Nat → Nat → List Diag → FileResult
  | fault : Fault → DB → FileResult
deriving DecidableEq

def FileResult.dbAfter : FileResult → DB
  | .ok db _ _ _ => db
  | .fault _ db => db

def FileResult.jAfter : FileResult → Option Nat
  | .ok _ j _ _ => j
  | .fault _ _ => none

def FileResult.recCount : FileResult → Nat
  | .ok _ _ n _ => n
  | .fault _ _ => 0

def FileResult.diagsOf : FileResult → List Diag
  | .ok _ _ _ d => d
  | .fault _ _ => []

def FileResult.faultOf : FileResult → Option Fault
  | .ok _ _ _ _ => none
  | .fault f _ => some f

/-- Embedding of the body of `CreateAddressBaseTables` for one non-skipped
file: take the basename, create the ledger row (committed at once), read
every line, then run `records += j+1` (a `NameError` if `j` is unbound,
i.e. the file was empty and no earlier file bound it), commit the session
and finalize the ledger row.  `jPrev` is the inherited value of `j` from
earlier files of the same run. -/
def processFile (db : DB) (path : String) (content : List Row)
    (jPrev : Option Nat) : FileResult :=
  match procLines (basename path) content 0 jPrev initCounts [] [] with
  | .error f => .fault f (fileInit (basename path) db).1
  | .ok (_, _, _, none) => .fault .nameError (fileInit (basename path) db).1
  | .ok (counts, pending, diags, some jv) =>
    .ok (finalizeDB (fileInit (basename path) db).1
      (fileInit (basename path) db).2.1 (fileInit (basename path) db).2.2
      counts pending) (some jv) (jv + 1) diags

/-- Outcome of a whole run over the candidate file list: the database, the
`records` total and the number of skipped files, or the first uncaught
fault with the database committed before it. -/
inductive RunResult where
  | ok : DB → Nat → Nat → RunResult
  | fault : Fault → DB → RunResult
deriving DecidableEq

def RunResult.dbOf : RunResult → DB
  | .ok db _ _ => db
  | .fault _ db => db

def RunResult.recordsOf : RunResult → Nat
  | .ok _ n _ => n
  | .fault _ _ => 0

def RunResult.skippedOf : RunResult → Nat
  | .ok _ _ s => s
  | .fault _ _ => 0

def RunResult.faultOf : RunResult → Option Fault
  | .ok _ _ _ => none
  | .fault f _ => some f

/-- The iteration `for i, file in enumerate(files)` of
`CreateAddressBaseTables`, with the `imported` list fixed at its entry
value: a candidate whose basename is in `imported` is skipped, every other
candidate is processed, threading `j` and accumulating `records`.
`contents` maps a path to the rows `csv.reader` yields for it. -/
def runFrom (imported : List String) (contents : String → List Row) :
    DB → List String → Option Nat → Nat → Nat → RunResult
  | db, [], _, records, skipped => .ok db records skipped
  | db, p :: rest, j, records, skipped =>
    if basename p ∈ imported then
      runFrom imported contents db rest j records (skipped + 1)
    else
      match processFile db p (contents p) j with
      | .fault f db1 => .fault f db1
      | .ok db2 j2 inc _ => runFrom imported contents db2 rest j2 (records + inc) skipped

/-- Embedding of the file-processing part of `CreateAddressBaseTables`:
when the globbed list is empty only a warning is logged; otherwise the
`imported` snapshot is taken once (the current ledger names) and the files
are iterated. -/
def runFiles (db : DB) (files : List String) (contents : String → List Row) :
    RunResult :=
  if files.isEmpty then .ok db 0 0
  else runFrom (currentNames db) contents db files none 0 0

/-- Embedding of the glob expansion `files = []; for p in patterns:
files += glob.glob(p)`, taking each pattern's match list as given. -/
def expandPatterns (ms : List (List String)) : List String :=
  ms.foldl (fun acc l => acc ++ l) []

/-- Digit-only nonempty text: a necessary condition for text that any
integer conversion accepts; used to exhibit raw text that cannot be
converted to an integer-typed column. -/
def isIntText (s : String) : Bool :=
  s ≠ "" && s.data.all (fun ch => ch.isDigit)

theorem takeWhile_eq_self_of_all {α : Type} {p : α → Bool} :
    ∀ (l : List α), (∀ a ∈ l, p a = true) → l.takeWhile p = l
  | [], _ => rfl
  | a :: l, h => by
    rw [List.takeWhile_cons, if_pos (h a (List.mem_cons_self a l))]
    rw [takeWhile_eq_self_of_all l (fun b hb => h b (List.mem_cons_of_mem a hb))]

theorem baseChars_idem (l : List Char) : baseChars (baseChars l) = baseChars l := by
  unfold baseChars
  rw [List.reverse_reverse]
  have h2 := takeWhile_eq_self_of_all (p := fun ch => ch != '/')
    (l.reverse.takeWhile (fun ch => ch != '/'))
    (fun a ha => by simpa using List.mem_takeWhile_imp ha)
  rw [h2]

theorem basename_idem (p : String) : basename (basename p) = basename p := by
  unfold basename
  rw [show (String.mk (baseChars p.data)).data = baseChars p.data from rfl]
  rw [baseChars_idem]

theorem contains_iff {l : List Nat} {x : Nat} : l.contains x = true ↔ x ∈ l := by
  simp

theorem bump_cons (k1 : String) (v : Nat) (rest : Counts) (k : String) :
    bump ((k1, v) :: rest) k =
      (if k1 = k then (k1, v + 1) else (k1, v)) :: bump rest k := by
  by_cases h : k1 = k
  · simp [bump, h]
  · simp [bump, h]

theorem lookupCount_cons (k1 : String) (v : Nat) (rest : Counts) (k2 : String) :
    lookupCount ((k1, v) :: rest) k2 = if k1 = k2 then v else lookupCount rest k2 := rfl

theorem hasKey_cons (k1 : String) (v : Nat) (rest : Counts) (k2 : String) :
    hasKey ((k1, v) :: rest) k2 = if k1 = k2 then true else hasKey rest k2 := rfl

theorem lookupCount_bump_ne (c : Counts) (k k2 : String) (h : k2 ≠ k) :
    lookupCount (bump c k) k2 = lookupCount c k2 := by
  induction c with
  | nil => rfl
  | cons q rest ih =>
    obtain ⟨k1, v⟩ := q
    rw [bump_cons]
    by_cases h1 : k1 = k
    · have h3 : k1 ≠ k2 := fun he => h (by rw [← he]; exact h1)
      rw [if_pos h1, lookupCount_cons, lookupCount_cons, if_neg h3, if_neg h3]
      exact ih
    · rw [if_neg h1, lookupCount_cons, lookupCount_cons]
      by_cases h2 : k1 = k2
      · rw [if_pos h2, if_pos h2]
      · rw [if_neg h2, if_neg h2]
        exact ih

theorem lookupCount_bump_self (c : Counts) (k : String) (h : hasKey c k = true) :
    lookupCount (bump c k) k = lookupCount c k + 1 := by
  induction c with
  | nil => simp [hasKey] at h
  | cons q rest ih =>
    obtain ⟨k1, v⟩ := q
    rw [bump_cons]
    by_cases h1 : k1 = k
    · rw [if_pos h1, lookupCount_cons, lookupCount_cons, if_pos h1, if_pos h1]
    · rw [if_neg h1, lookupCount_cons, lookupCount_cons, if_neg h1, if_neg h1]
      rw [hasKey_cons, if_neg h1] at h
      exact ih h

theorem hasKey_bump (c : Counts) (k k2 : String) :
    hasKey (bump c k2) k = hasKey c k := by
  induction c with
  | nil => rfl
  | cons q rest ih =>
    obtain ⟨k1, v⟩ := q
    rw [bump_cons]
    by_cases h1 : k1 = k2
    · rw [if_pos h1, hasKey_cons, hasKey_cons]
      by_cases h2 : k1 = k
      · rw [if_pos h2, if_pos h2]
      · rw [if_neg h2, if_neg h2]
        exact ih
    · rw [if_neg h1, hasKey_cons, hasKey_cons]
      by_cases h2 : k1 = k
      · rw [if_pos h2, if_pos h2]
      · rw [if_neg h2, if_neg h2]
        exact ih

theorem sum_lookup_bump :
    ∀ (l : List String) (c : Counts) (k : String), l.Nodup → k ∈ l →
      hasKey c k = true →
      (l.map (fun k2 => lookupCount (bump c k) k2)).sum =
        (l.map (fun k2 => lookupCount c k2)).sum + 1
  | [], _, _, _, hk, _ => absurd hk (List.not_mem_nil _)
  | a :: l, c, k, hnd, hk, hhas => by
    rw [List.nodup_cons] at hnd
    simp only [List.map_cons, List.sum_cons]
    rcases List.mem_cons.mp hk with heq | hkl
    · subst heq
      rw [lookupCount_bump_self c k hhas]
      have h4 : l.map (fun k2 => lookupCount (bump c k) k2) =
          l.map (fun k2 => lookupCount c k2) :=
        List.map_congr_left
          (fun k2 hk2 => lookupCount_bump_ne c k k2 (fun he => hnd.1 (he ▸ hk2)))
      rw [h4]
      omega
    · have ha : a ≠ k := fun he => hnd.1 (he ▸ hkl)
      rw [lookupCount_bump_ne c k a ha]
      rw [sum_lookup_bump l c k hnd.2 hkl hhas]
      omega

theorem codes_nodup : codes.Nodup := by decide

theorem sumShapes_bump (c : Counts) (k : String) (hk : k ∈ codes)
    (hhas : hasKey c k = true) : sumShapes (bump c k) = sumShapes c + 1 :=
  sum_lookup_bump codes c k codes_nodup hk hhas

theorem recTypes_mem_facts : ∀ rt ∈ recTypesList,
    rt.code ∈ codes ∧ rt.code ≠ "Error" ∧ rt.hasMapping = true ∧
      rt.ignore = false := by decide

theorem recTypes_facts {d : String} {rt : RecordType} (h : RecTypes d = some rt) :
    rt.code ∈ codes ∧ rt.code ≠ "Error" ∧ rt.hasMapping = true ∧
      rt.ignore = false :=
  recTypes_mem_facts rt (List.mem_of_find?_eq_some h)

theorem initCounts_facts :
    sumShapes initCounts = 0 ∧ lookupCount initCounts "Error" = 0 ∧
      (∀ k ∈ codes, hasKey initCounts k = true) := by decide

theorem procLines_counts :
    ∀ (rows : List Row) (fname : String) (idx : Nat) (j : Option Nat)
      (c0 : Counts) (p0 : List PRec) (d0 : List Diag) (c : Counts)
      (p : List PRec) (d : List Diag) (j2 : Option Nat),
      procLines fname rows idx j c0 p0 d0 = .ok (c, p, d, j2) →
      (∀ k ∈ codes, hasKey c0 k = true) →
      sumShapes c = sumShapes c0 + rows.length ∧
        lookupCount c "Error" = lookupCount c0 "Error" ∧
        (∀ k ∈ codes, hasKey c k = true) := by
  intro rows
  induction rows with
  | nil =>
    intro fname idx j c0 p0 d0 c p d j2 h hkeys
    simp only [procLines, Except.ok.injEq, Prod.mk.injEq] at h
    obtain ⟨rfl, rfl, rfl, rfl⟩ := h
    simpa using hkeys
  | cons row rest ih =>
    intro fname idx j c0 p0 d0 c p d j2 h hkeys
    simp only [procLines] at h
    split at h
    · simp at h
    · split at h
      · simp at h
      · rename_i d1 heq1 rt heq2
        have hfacts := recTypes_facts heq2
        have hkeys2 : ∀ k ∈ codes, hasKey (bump c0 rt.code) k = true :=
          fun k hk => (hasKey_bump c0 k rt.code).trans (hkeys k hk)
        obtain ⟨hsum, herr, hkeys3⟩ := ih fname (idx + 1) (some idx) _ _ _ c p d j2 h hkeys2
        refine ⟨?_, ?_, hkeys3⟩
        · rw [hsum, sumShapes_bump c0 rt.code hfacts.1 (hkeys _ hfacts.1)]
          simp [List.length_cons]
          omega
        · rw [herr, lookupCount_bump_ne c0 rt.code "Error"
            (fun he => hfacts.2.1 he.symm)]

theorem procLines_keyError :
    ∀ (pre : List Row) (fname : String) (idx : Nat) (j : Option Nat)
      (c : Counts) (p : List PRec) (dg : List Diag) (d : String)
      (rest : List String) (post : List Row),
      (∀ r ∈ pre, rowOk r = true) → RecTypes d = none →
      procLines fname (pre ++ (d :: rest) :: post) idx j c p dg =
        .error .keyError := by
  intro pre
  induction pre with
  | nil =>
    intro fname idx j c p dg d rest post _ hd
    simp [procLines, hd]
  | cons r pre ih =>
    intro fname idx j c p dg d rest post hall hd
    have hr := hall r (List.mem_cons_self r pre)
    unfold rowOk at hr
    cases hh : r.head? with
    | none => rw [hh] at hr; simp at hr
    | some d1 =>
      rw [hh] at hr
      obtain ⟨rt, hrt⟩ := Option.isSome_iff_exists.mp hr
      simp only [List.cons_append, procLines, hh, hrt]
      exact ih fname (idx + 1) (some idx) _ _ _ d rest post
        (fun q hq => hall q (List.mem_cons_of_mem r hq)) hd

theorem procLines_indexError :
    ∀ (pre : List Row) (fname : String) (idx : Nat) (j : Option Nat)
      (c : Counts) (p : List PRec) (dg : List Diag) (post : List Row),
      (∀ r ∈ pre, rowOk r = true) →
      procLines fname (pre ++ [] :: post) idx j c p dg = .error .indexError := by
  intro pre
  induction pre with
  | nil =>
    intro fname idx j c p dg post _
    simp [procLines]
  | cons r pre ih =>
    intro fname idx j c p dg post hall
    have hr := hall r (List.mem_cons_self r pre)
    unfold rowOk at hr
    cases hh : r.head? with
    | none => rw [hh] at hr; simp at hr
    | some d1 =>
      rw [hh] at hr
      obtain ⟨rt, hrt⟩ := Option.isSome_iff_exists.mp hr
      simp only [List.cons_append, procLines, hh, hrt]
      exact ih fname (idx + 1) (some idx) _ _ _ post
        (fun q hq => hall q (List.mem_cons_of_mem r hq))

theorem processFile_ok_elim {db : DB} {path : String} {content : List Row}
    {jPrev : Option Nat} {db2 : DB} {j2 : Option Nat} {n : Nat} {dg : List Diag}
    (h : processFile db path content jPrev = .ok db2 j2 n dg) :
    ∃ counts pending jv,
      procLines (basename path) content 0 jPrev initCounts [] [] =
        .ok (counts, pending, dg, some jv) ∧
      j2 = some jv ∧ n = jv + 1 ∧
      db2 = finalizeDB (fileInit (basename path) db).1
        (fileInit (basename path) db).2.1 (fileInit (basename path) db).2.2
        counts pending := by
  unfold processFile at h
  split at h
  · simp at h
  · simp at h
  · rename_i counts pending diags jv heq
    simp only [FileResult.ok.injEq] at h
    obtain ⟨h1, h2, h3, h4⟩ := h
    exact ⟨counts, pending, jv, h4 ▸ heq, h2.symm, h3.symm, h1.symm⟩

theorem processFile_fault_elim {db : DB} {path : String} {content : List Row}
    {jPrev : Option Nat} {f : Fault} {db1 : DB}
    (h : processFile db path content jPrev = .fault f db1) :
    db1 = (fileInit (basename path) db).1 := by
  unfold processFile at h
  split at h
  · simp only [FileResult.fault.injEq] at h
    exact h.2.symm
  · simp only [FileResult.fault.injEq] at h
    exact h.2.symm
  · simp at h

theorem fileInit_eq (name : String) (db : DB) :
    fileInit name db =
      (⟨db.files ++ [newRowOf db name], db.nextFileId + 1, db.recs⟩,
       db.nextFileId, oldsOf db name) := rfl

theorem updOne_sup (fid : Nat) (c : Counts) (s : FileRow) :
    (updOne fid c s).supersededBy = s.supersededBy := by
  unfold updOne
  split <;> rfl

theorem updOne_name (fid : Nat) (c : Counts) (s : FileRow) :
    (updOne fid c s).fileName = s.fileName := by
  unfold updOne
  split <;> rfl

theorem updOne_id (fid : Nat) (c : Counts) (s : FileRow) :
    (updOne fid c s).id = s.id := by
  unfold updOne
  split <;> rfl

theorem updOne_hit (fid : Nat) (c : Counts) (s : FileRow) (h : s.id = fid) :
    (updOne fid c s).createEnd = true ∧ (updOne fid c s).stored = some c := by
  unfold updOne
  rw [if_pos h]
  exact ⟨rfl, rfl⟩

theorem supersedeOne_id (o : List Nat) (n : Nat) (r : FileRow) :
    (supersedeOne o n r).id = r.id := by
  unfold supersedeOne
  split <;> rfl

theorem supersedeOne_name (o : List Nat) (n : Nat) (r : FileRow) :
    (supersedeOne o n r).fileName = r.fileName := by
  unfold supersedeOne
  split <;> rfl

theorem supersedeOne_miss (o : List Nat) (n : Nat) (r : FileRow)
    (h : o.contains r.id = false) : supersedeOne o n r = r := by
  unfold supersedeOne
  rw [h]
  rfl

theorem supersedeOne_hit (o : List Nat) (n : Nat) (r : FileRow)
    (h : o.contains r.id = true) :
    supersedeOne o n r = { r with supersededBy := some n } := by
  unfold supersedeOne
  rw [h]
  rfl

theorem oldsOf_not_nextId (db : DB) (name : String) (hwf : db.wf) :
    (oldsOf db name).contains db.nextFileId = false := by
  by_contra h
  rw [Bool.not_eq_false, contains_iff] at h
  simp only [oldsOf, List.mem_map, List.mem_filter] at h
  obtain ⟨r, ⟨hr, _⟩, hid⟩ := h
  have := hwf.1 r hr
  omega

theorem name_of_mem_oldsOf {db : DB} {name : String} {r : FileRow}
    (hnd : (db.files.map (fun r => r.id)).Nodup) (hr : r ∈ db.files)
    (hmem : (oldsOf db name).contains r.id = true) :
    r.fileName = name ∧ r.supersededBy = none := by
  rw [contains_iff] at hmem
  simp only [oldsOf, List.mem_map, List.mem_filter] at hmem
  obtain ⟨r2, ⟨hr2, hq⟩, hid⟩ := hmem
  have heq : r2 = r := List.inj_on_of_nodup_map hnd hr2 hr hid
  subst heq
  simp only [Bool.and_eq_true, beq_iff_eq, Option.isNone_iff_eq_none] at hq
  exact hq

theorem mem_oldsOf_of_current {db : DB} {name : String} {r : FileRow}
    (hr : r ∈ db.files) (hname : r.fileName = name)
    (hsup : r.supersededBy = none) :
    (oldsOf db name).contains r.id = true := by
  rw [contains_iff]
  simp only [oldsOf, List.mem_map, List.mem_filter]
  exact ⟨r, ⟨hr, by simp [hname, hsup]⟩, rfl⟩

theorem processFile_files {db : DB} {path : String} {content : List Row}
    {jPrev : Option Nat} {db2 : DB} {j2 : Option Nat} {n : Nat} {dg : List Diag}
    (h : processFile db path content jPrev = .ok db2 j2 n dg) :
    ∃ counts,
      db2.files = (db.files ++ [newRowOf db (basename path)]).map
        (fun r => updOne db.nextFileId counts
          (supersedeOne (oldsOf db (basename path)) db.nextFileId r)) ∧
      db2.nextFileId = db.nextFileId + 1 := by
  obtain ⟨counts, pending, jv, _, _, _, rfl⟩ := processFile_ok_elim h
  refine ⟨counts, ?_, rfl⟩
  rw [fileInit_eq]
  simp [finalizeDB, fileUpdate, applySupersede, List.map_map, Function.comp]

theorem mem_currentNames {db : DB} {name : String} :
    name ∈ currentNames db ↔
      ∃ r, r ∈ db.files ∧ r.supersededBy = none ∧ r.fileName = name := by
  simp only [currentNames, List.mem_map, List.mem_filter,
    Option.isNone_iff_eq_none]
  constructor
  · rintro ⟨r, ⟨h1, h2⟩, h3⟩
    exact ⟨r, h1, h2, h3⟩
  · rintro ⟨r, h1, h2, h3⟩
    exact ⟨r, ⟨h1, h2⟩, h3⟩

theorem processFile_wf {db : DB} {path : String} {content : List Row}
    {jPrev : Option Nat} {db2 : DB} {j2 : Option Nat} {n : Nat} {dg : List Diag}
    (hwf : db.wf) (h : processFile db path content jPrev = .ok db2 j2 n dg) :
    db2.wf := by
  obtain ⟨counts, hfiles, hnext⟩ := processFile_files h
  constructor
  · intro r hr
    rw [hfiles] at hr
    rw [hnext]
    obtain ⟨r0, hr0, rfl⟩ := List.mem_map.mp hr
    rw [updOne_id, supersedeOne_id]
    rcases List.mem_append.mp hr0 with h1 | h2
    · have := hwf.1 r0 h1
      omega
    · have : r0 = newRowOf db (basename path) := by simpa using h2
      subst this
      simp [newRowOf]
  · rw [hfiles, List.map_map]
    have h2 : db.files ++ [newRowOf db (basename path)] ≠ [] := by simp
    have h3 : ((db.files ++ [newRowOf db (basename path)]).map
        ((fun r : FileRow => r.id) ∘
          (fun r => updOne db.nextFileId counts
            (supersedeOne (oldsOf db (basename path)) db.nextFileId r)))) =
        (db.files ++ [newRowOf db (basename path)]).map (fun r => r.id) := by
      apply List.map_congr_left
      intro r _
      simp [Function.comp, updOne_id, supersedeOne_id]
    rw [h3, List.map_append]
    rw [List.nodup_append]
    refine ⟨hwf.2, by simp, ?_⟩
    intro x hx
    simp only [List.mem_map] at hx
    obtain ⟨r0, hr0, rfl⟩ := hx
    have := hwf.1 r0 hr0
    simp only [newRowOf, List.map_cons, List.map_nil, List.mem_singleton]
    omega

theorem processFile_new_current {db : DB} {path : String} {content : List Row}
    {jPrev : Option Nat} {db2 : DB} {j2 : Option Nat} {n : Nat} {dg : List Diag}
    (hwf : db.wf) (h : processFile db path content jPrev = .ok db2 j2 n dg) :
    basename path ∈ currentNames db2 := by
  obtain ⟨counts, hfiles, _⟩ := processFile_files h
  rw [mem_currentNames]
  refine ⟨updOne db.nextFileId counts
    (supersedeOne (oldsOf db (basename path)) db.nextFileId
      (newRowOf db (basename path))), ?_, ?_, ?_⟩
  · rw [hfiles]
    exact List.mem_map_of_mem _ (List.mem_append_right _ (by simp))
  · rw [updOne_sup]
    rw [supersedeOne_miss _ _ _ (by
      rw [show (newRowOf db (basename path)).id = db.nextFileId from rfl]
      exact oldsOf_not_nextId db (basename path) hwf)]
    rfl
  · rw [updOne_name, supersedeOne_name]
    rw [show (newRowOf db (basename path)).fileName =
      basename (basename path) from rfl]
    exact basename_idem path

theorem processFile_current_mono {db : DB} {path : String} {content : List Row}
    {jPrev : Option Nat} {db2 : DB} {j2 : Option Nat} {n : Nat} {dg : List Diag}
    (hwf : db.wf) (h : processFile db path content jPrev = .ok db2 j2 n dg)
    (name : String) (hn : name ∈ currentNames db) :
    name ∈ currentNames db2 := by
  obtain ⟨counts, hfiles, _⟩ := processFile_files h
  rw [mem_currentNames] at hn
  obtain ⟨r, hr, hsup, hname⟩ := hn
  by_cases hc : (oldsOf db (basename path)).contains r.id = true
  · have hnm := name_of_mem_oldsOf hwf.2 hr hc
    have h2 := processFile_new_current hwf h
    rw [← hname, hnm.1]
    exact h2
  · rw [mem_currentNames]
    refine ⟨updOne db.nextFileId counts
      (supersedeOne (oldsOf db (basename path)) db.nextFileId r), ?_, ?_, ?_⟩
    · rw [hfiles]
      exact List.mem_map_of_mem _ (List.mem_append_left _ hr)
    · rw [updOne_sup, supersedeOne_miss _ _ _ (Bool.eq_false_iff.mpr hc)]
      exact hsup
    · rw [updOne_name, supersedeOne_name]
      exact hname

theorem runFrom_ok_props :
    ∀ (files : List String) (imp : List String)
      (cont : String → List Row) (db : DB) (j : Option Nat) (rec sk : Nat)
      (db2 : DB) (n s : Nat), db.wf →
      runFrom imp cont db files j rec sk = .ok db2 n s →
      db2.wf ∧ (∀ name, name ∈ currentNames db → name ∈ currentNames db2) ∧
        (∀ p ∈ files, basename p ∈ imp ∨ basename p ∈ currentNames db2) := by
  intro files
  induction files with
  | nil =>
    intro imp cont db j rec sk db2 n s hwf h
    simp only [runFrom, RunResult.ok.injEq] at h
    obtain ⟨rfl, -, -⟩ := h
    exact ⟨hwf, fun name hn => hn, by simp⟩
  | cons p rest ih =>
    intro imp cont db j rec sk db2 n s hwf h
    simp only [runFrom] at h
    split at h
    · rename_i hin
      obtain ⟨hwf2, hmono, hprop⟩ := ih imp cont db j rec (sk + 1) db2 n s hwf h
      refine ⟨hwf2, hmono, ?_⟩
      intro q hq
      rcases List.mem_cons.mp hq with heq | hq2
      · subst heq
        exact Or.inl hin
      · exact hprop q hq2
    · split at h
      · simp at h
      · rename_i db1 j1 inc dg1 heq
        obtain ⟨hwf2, hmono, hprop⟩ := ih imp cont db1 j1 (rec + inc) sk db2 n s
          (processFile_wf hwf heq) h
        refine ⟨hwf2, ?_, ?_⟩
        · intro name hn
          exact hmono name (processFile_current_mono hwf heq name hn)
        · intro q hq
          rcases List.mem_cons.mp hq with heq2 | hq2
          · subst heq2
            exact Or.inr (hmono _ (processFile_new_current hwf heq))
          · exact hprop q hq2

theorem runFrom_all_skip :
    ∀ (files : List String) (imp : List String)
      (cont : String → List Row) (db : DB) (j : Option Nat) (rec sk : Nat),
      (∀ p ∈ files, basename p ∈ imp) →
      runFrom imp cont db files j rec sk = .ok db rec (sk + files.length) := by
  intro files
  induction files with
  | nil =>
    intro imp cont db j rec sk _
    simp [runFrom]
  | cons p rest ih =>
    intro imp cont db j rec sk hall
    simp only [runFrom]
    rw [if_pos (hall p (List.mem_cons_self p rest))]
    rw [ih imp cont db j rec (sk + 1)
      (fun q hq => hall q (List.mem_cons_of_mem p hq))]
    congr 1
    simp [List.length_cons]
    omega

theorem fields_length (rt : RecordType) : rt.fields.length = rt.specs.length := by
  simp [RecordType.fields]

theorem CreateObject_reg {d : String} {rt : RecordType}
    (h : RecTypes d = some rt) (rec : List String) :
    CreateObject rt rec = some ((List.range rt.specs.length).map (fun i =>
      match rec.get? i with
      | some v => if v = "" then none else some v
      | none => none)) := by
  have hf := recTypes_facts h
  unfold CreateObject
  rw [hf.2.2.1, hf.2.2.2]
  rfl

theorem CreateObject_spec {d : String} {rt : RecordType}
    (h : RecTypes d = some rt) (rec : List String) :
    ∃ o, CreateObject rt rec = some o ∧ o.length = rt.specs.length ∧
      (∀ i v, rec.get? i = some v → i < rt.specs.length →
        o.get? i = some (if v = "" then none else some v)) ∧
      (∀ i, i < rt.specs.length → rec.length ≤ i → o.get? i = some none) := by
  refine ⟨_, CreateObject_reg h rec, ?_, ?_, ?_⟩
  · simp
  · intro i v hv hi
    rw [List.get?_map, List.get?_range hi]
    rw [List.get?_eq_getElem?] at hv
    simp [hv]
  · intro i hi hlen
    rw [List.get?_map, List.get?_range hi]
    have h2 : rec.get? i = none := List.get?_eq_none.mpr hlen
    rw [List.get?_eq_getElem?] at h2
    simp [h2]

theorem finalize_files (db : DB) (name : String) (counts : Counts)
    (pending : List PRec) :
    (finalizeDB (fileInit name db).1 (fileInit name db).2.1
      (fileInit name db).2.2 counts pending).files =
      (db.files.map (fun r => updOne db.nextFileId counts
        (supersedeOne (oldsOf db name) db.nextFileId r))) ++
      [updOne db.nextFileId counts
        (supersedeOne (oldsOf db name) db.nextFileId (newRowOf db name))] := by
  rw [fileInit_eq]
  simp [finalizeDB, fileUpdate, applySupersede, List.map_append]

/-- Claim C1, counterexample: the claim says a file with one
unknown-discriminator line among valid lines completes processing, counts
that line as an error and persists every other line.  On the code,
`RecTypes[row[0]]` raises an uncaught `KeyError` at that line: the run
aborts and, since `session.commit()` is only reached after the whole file,
no record of the file is persisted. -/
theorem c1_counterexample :
    (processFile emptyDB "f.csv" [["10"], ["77", "x"], ["11"]] none).faultOf =
      some Fault.keyError ∧
    (processFile emptyDB "f.csv" [["10"], ["77", "x"], ["11"]] none).dbAfter.recs
      = [] := by
  decide

/-- Claim C1, amended: for every file whose lines up to some point are
well-formed and whose next line carries an unregistered discriminator,
processing raises an uncaught `KeyError` there, aborting the run; the
error counter is never incremented and no record of the file is persisted
(the committed store still holds exactly the records it held before). -/
theorem c1_keyerror_aborts (db : DB) (path : String) (pre : List Row)
    (d : String) (rest : List String) (post : List Row) (jPrev : Option Nat)
    (hpre : ∀ r ∈ pre, rowOk r = true) (hd : RecTypes d = none) :
    (processFile db path (pre ++ (d :: rest) :: post) jPrev).faultOf =
      some Fault.keyError ∧
    (processFile db path (pre ++ (d :: rest) :: post) jPrev).dbAfter.recs =
      db.recs := by
  have hpl := procLines_keyError pre (basename path) 0 jPrev initCounts [] []
    d rest post hpre hd
  unfold processFile
  rw [hpl]
  exact ⟨rfl, rfl⟩

/-- Witness for `c1_keyerror_aborts` at a concrete input. -/
theorem c1_keyerror_aborts_witness :
    (processFile emptyDB "g.csv" ([["10"]] ++ ("77" :: ["x"]) :: [["11"]])
      none).faultOf = some Fault.keyError ∧
    (processFile emptyDB "g.csv" ([["10"]] ++ ("77" :: ["x"]) :: [["11"]])
      none).dbAfter.recs = emptyDB.recs :=
  c1_keyerror_aborts emptyDB "g.csv" [["10"]] "77" ["x"] [["11"]] none
    (by decide) (by decide)

/-- Claim C2: for every file that reaches finalization, the finalized ledger
row has `CreateEnd` set and counters stored, and the sum of its per-shape
counters plus its error counter equals the number of lines read from the
file.  (In fact the error counter is never incremented, and every line that
is read without fault bumps exactly one shape counter.) -/
theorem c2_count_conservation (db : DB) (path : String) (content : List Row)
    (jPrev : Option Nat) (db2 : DB) (j2 : Option Nat) (n : Nat)
    (dg : List Diag)
    (h : processFile db path content jPrev = .ok db2 j2 n dg) :
    ∃ r c, db2.files.getLast? = some r ∧ r.createEnd = true ∧
      r.stored = some c ∧
      sumShapes c + lookupCount c "Error" = content.length := by
  obtain ⟨counts, pending, jv, hpl, -, -, rfl⟩ := processFile_ok_elim h
  obtain ⟨hsum, herr, -⟩ := procLines_counts content (basename path) 0 jPrev
    initCounts [] [] counts pending dg (some jv) hpl initCounts_facts.2.2
  refine ⟨updOne db.nextFileId counts
    (supersedeOne (oldsOf db (basename path)) db.nextFileId
      (newRowOf db (basename path))), counts, ?_, ?_, ?_, ?_⟩
  · rw [finalize_files]
    exact List.getLast?_concat _
  · exact (updOne_hit _ _ _ (by rw [supersedeOne_id]; rfl)).1
  · exact (updOne_hit _ _ _ (by rw [supersedeOne_id]; rfl)).2
  · rw [hsum, herr, initCounts_facts.1, initCounts_facts.2.1]
    omega

/-- Witness for `c2_count_conservation` at a concrete two-line file. -/
theorem c2_count_conservation_witness :
    ∃ r c, ((processFile emptyDB "f.csv" [["10"], ["99", "a"]]
        none).dbAfter).files.getLast? = some r ∧ r.createEnd = true ∧
      r.stored = some c ∧
      sumShapes c + lookupCount c "Error" =
        ([["10"], ["99", "a"]] : List Row).length :=
  c2_count_conservation emptyDB "f.csv" [["10"], ["99", "a"]] none
    (processFile emptyDB "f.csv" [["10"], ["99", "a"]] none).dbAfter
    (processFile emptyDB "f.csv" [["10"], ["99", "a"]] none).jAfter
    (processFile emptyDB "f.csv" [["10"], ["99", "a"]] none).recCount
    (processFile emptyDB "f.csv" [["10"], ["99", "a"]] none).diagsOf
    (by decide)

/-- Claim C6, counterexample: the claim says a non-empty raw text that cannot
be converted to the field's semantic type makes the builder null the field,
report a per-field diagnostic and flag the record.  On the code, field 1 of
a Header record has an integer-typed column, the text `abc` is not an
integer literal, yet `CreateObject` stores the raw string verbatim (not
null); `CreateObject` performs no conversion, emits no diagnostic and sets
no flag — its whole output is the field list shown here. -/
theorem c6_counterexample :
    (headerSpecs.get? 1).map (fun s => s.ty) = some ColTy.intCol ∧
    isIntText "abc" = false ∧
    CreateObject headerRT ["HDR", "abc"] =
      some [some "HDR", some "abc", none, none, none, none, none, none] := by
  decide

/-- Claim C6, amended: building the record never aborts on unconvertible
text, but the field is not nulled and no per-field diagnostic or flag
exists: every non-empty raw field of a registered shape is stored verbatim,
whatever its column's semantic type; conversion is left to the storage
backend. -/
theorem c6_verbatim_no_coercion (dcode : String) (rt : RecordType)
    (rec : List String) (i : Nat) (v : String) (h : RecTypes dcode = some rt)
    (hv : rec.get? i = some v) (hne : v ≠ "") (hi : i < rt.specs.length) :
    ∃ o, CreateObject rt rec = some o ∧ o.get? i = some (some v) := by
  obtain ⟨o, ho, -, hget, -⟩ := CreateObject_spec h rec
  refine ⟨o, ho, ?_⟩
  rw [hget i v hv hi]
  simp [hne]

/-- Witness for `c6_verbatim_no_coercion` at the Header shape with
unconvertible integer text. -/
theorem c6_verbatim_no_coercion_witness :
    ∃ o, CreateObject headerRT ["HDR", "abc"] = some o ∧
      o.get? 1 = some (some "abc") :=
  c6_verbatim_no_coercion "10" headerRT ["HDR", "abc"] 1 "abc"
    (by decide) (by decide) (by decide) (by decide)

/-- Claim C7: for every registered shape and every line with exactly
`len(shape.fields)` raw data fields, `CreateObject` produces a record with
one value per declared field, where field `i` is the value mapping of
`rawFields[i]` — null exactly when `rawFields[i]` is the empty string, and
the raw string itself (the coercion applied at this layer is
value-preserving; typing is the storage backend's) otherwise, for every
`i`. -/
theorem c7_field_mapping (dcode : String) (rt : RecordType)
    (rec : List String) (h : RecTypes dcode = some rt)
    (hlen : rec.length = rt.fields.length) :
    ∃ o, CreateObject rt rec = some o ∧ o.length = rt.specs.length ∧
      ∀ i v, rec.get? i = some v →
        o.get? i = some (if v = "" then none else some v) := by
  obtain ⟨o, ho, hol, hget, -⟩ := CreateObject_spec h rec
  refine ⟨o, ho, hol, ?_⟩
  intro i v hv
  have hi : i < rec.length := by
    by_contra hge
    rw [List.get?_eq_none.mpr (Nat.le_of_not_lt hge)] at hv
    exact Option.noConfusion hv
  rw [hlen, fields_length] at hi
  exact hget i v hv hi

/-- Witness for `c7_field_mapping` at a Trailer line with an empty second
field. -/
theorem c7_field_mapping_witness :
    ∃ o, CreateObject trailerRT ["a", "", "c", "d"] = some o ∧
      o.length = trailerRT.specs.length ∧
      ∀ i v, (["a", "", "c", "d"] : List String).get? i = some v →
        o.get? i = some (if v = "" then none else some v) :=
  c7_field_mapping "99" trailerRT ["a", "", "c", "d"] (by decide) (by decide)

/-- Claim C8: a line whose field count differs from its shape's declared
count does not abort the file: the warning carrying the line number, the
shape's name, the actual data field count and the raw content is appended,
the shape's counter is bumped, and the built record is still added to the
session; the record maps only the overlapping prefix — it has exactly one
value per declared field, extra trailing raw fields are dropped, and
missing trailing fields are left null. -/
theorem c8_mismatch_best_effort (fname : String) (row : Row)
    (rest : List Row) (idx : Nat) (j : Option Nat) (c : Counts)
    (p : List PRec) (dgs : List Diag) (d : String) (rt : RecordType)
    (hh : row.head? = some d) (hrt : RecTypes d = some rt)
    (hmis : row.length ≠ rt.fields.length + 1) :
    ∃ o, CreateObject rt row.tail = some o ∧
      procLines fname (row :: rest) idx j c p dgs =
        procLines fname rest (idx + 1) (some idx) (bump c rt.code)
          (p ++ [(rt.code, o)])
          (dgs ++ [⟨idx + 1, rt.name, row.length - 1, fname, row.tail⟩]) ∧
      o.length = rt.specs.length ∧
      (∀ i v, row.tail.get? i = some v → i < rt.specs.length →
        o.get? i = some (if v = "" then none else some v)) ∧
      (∀ i, i < rt.specs.length → row.tail.length ≤ i →
        o.get? i = some none) := by
  obtain ⟨o, ho, hol, hget, hnull⟩ := CreateObject_spec hrt row.tail
  refine ⟨o, ho, ?_, hol, hget, hnull⟩
  simp only [procLines, hh, hrt, ho, if_pos hmis]

/-- Witness for `c8_mismatch_best_effort`: a BLPU line (21 declared fields)
carrying 22 data fields, one too many. -/
theorem c8_mismatch_best_effort_witness :
    ∃ o, CreateObject blpuRT ("21" :: List.replicate 22 "x").tail = some o ∧
      procLines "f.csv" (("21" :: List.replicate 22 "x") :: []) 0 none
          initCounts [] [] =
        procLines "f.csv" [] (0 + 1) (some 0) (bump initCounts blpuRT.code)
          ([] ++ [(blpuRT.code, o)])
          ([] ++ [⟨0 + 1, blpuRT.name,
            ("21" :: List.replicate 22 "x").length - 1, "f.csv",
            ("21" :: List.replicate 22 "x").tail⟩]) ∧
      o.length = blpuRT.specs.length ∧
      (∀ i v, ("21" :: List.replicate 22 "x").tail.get? i = some v →
        i < blpuRT.specs.length →
        o.get? i = some (if v = "" then none else some v)) ∧
      (∀ i, i < blpuRT.specs.length →
        ("21" :: List.replicate 22 "x").tail.length ≤ i →
        o.get? i = some none) :=
  c8_mismatch_best_effort "f.csv" ("21" :: List.replicate 22 "x") [] 0 none
    initCounts [] [] "21" blpuRT (by decide) (by decide) (by decide)

/-- Claim C9, counterexample: the claim says glob expansion deduplicates
while preserving order, so no path appears twice.  On the code the match
lists are concatenated with no deduplication: a path matched by two
patterns appears twice. -/
theorem c9_counterexample :
    expandPatterns [["a.csv"], ["a.csv"]] = ["a.csv", "a.csv"] ∧
    ¬ (expandPatterns [["a.csv"], ["a.csv"]]).Nodup := by
  decide

theorem expandPatterns_eq_join (ms : List (List String)) :
    expandPatterns ms = ms.join := by
  have hj : ∀ (ms : List (List String)) (acc : List String),
      ms.foldl (fun acc l => acc ++ l) acc = acc ++ ms.join := by
    intro ms
    induction ms with
    | nil => intro acc; simp
    | cons l ms ih =>
      intro acc
      rw [List.foldl_cons, ih (acc ++ l)]
      simp [List.join]
  show ms.foldl (fun acc l => acc ++ l) [] = ms.join
  rw [hj ms []]
  simp

/-- Claim C9, amended: the candidate list is the order-preserving
concatenation of every pattern's match list, with no deduplication: a path
occurs in the candidate list once per pattern match that produced it. -/
theorem c9_concat_no_dedup (ms : List (List String)) (p : String) :
    expandPatterns ms = ms.join ∧
    (expandPatterns ms).count p = (ms.map (fun l => l.count p)).sum := by
  refine ⟨expandPatterns_eq_join ms, ?_⟩
  rw [expandPatterns_eq_join ms]
  induction ms with
  | nil => simp
  | cons l ms ih =>
    simp only [List.join_cons, List.map_cons, List.sum_cons,
      List.count_append]
    rw [ih]

/-- Claim C10, counterexample: the claim says an empty non-skipped file
always aborts the run.  When a non-empty file precedes it, the Python loop
variable `j` is still bound from that file, so the run completes without
fault — the empty file `d.csv` is finalized and the stale `j+1` is added to
the records total, which reports 2 although only one line exists across
both files. -/
theorem c10_counterexample :
    (runFiles emptyDB ["c.csv", "d.csv"]
      (fun s => if s = "c.csv" then [["10"]] else [])).faultOf = none ∧
    (runFiles emptyDB ["c.csv", "d.csv"]
      (fun s => if s = "c.csv" then [["10"]] else [])).skippedOf = 0 ∧
    (runFiles emptyDB ["c.csv", "d.csv"]
      (fun s => if s = "c.csv" then [["10"]] else [])).recordsOf = 2 := by
  decide

/-- Claim C10, amended: a blank line always aborts the run with an uncaught
`IndexError` at `row[0]`; an empty file aborts with an uncaught `NameError`
at `records += j+1` only when no earlier file of the run has bound `j` —
otherwise (shown at the concrete run of `c10_counterexample`'s shape, here
with files `a.csv` and `b.csv`) the run completes, the empty file is
finalized with zero counts and the stale `j+1` inflates the records
total. -/
theorem c10_partial_faults :
    (∀ (db : DB) (path : String) (pre : List Row) (post : List Row)
      (jPrev : Option Nat), (∀ r ∈ pre, rowOk r = true) →
      (processFile db path (pre ++ [] :: post) jPrev).faultOf =
        some Fault.indexError) ∧
    (∀ (db : DB) (path : String),
      (processFile db path [] none).faultOf = some Fault.nameError) ∧
    (runFiles emptyDB ["a.csv", "b.csv"]
      (fun s => if s = "a.csv" then [["10"]] else [])).faultOf = none ∧
    (runFiles emptyDB ["a.csv", "b.csv"]
      (fun s => if s = "a.csv" then [["10"]] else [])).recordsOf = 2 := by
  refine ⟨?_, ?_, by decide, by decide⟩
  · intro db path pre post jPrev hall
    have hpl := procLines_indexError pre (basename path) 0 jPrev initCounts
      [] [] post hall
    unfold processFile
    rw [hpl]
    rfl
  · intro db path
    rfl

/-- Witness for `c10_partial_faults`: its universally quantified parts at a
blank-line file and at an empty first file. -/
theorem c10_partial_faults_witness :
    (processFile emptyDB "e.csv" ([["10"]] ++ [] :: []) none).faultOf =
      some Fault.indexError ∧
    (processFile emptyDB "e2.csv" [] none).faultOf = some Fault.nameError :=
  ⟨c10_partial_faults.1 emptyDB "e.csv" [["10"]] [] none (by decide),
   c10_partial_faults.2.1 emptyDB "e2.csv"⟩

/-- Claim C3, counterexample: the claim extends the skip to every candidate
whose basename matches a current ImportedFile at any point during a run.
On the code the `imported` list is queried once, before the loop: with the
two candidates `a/f.csv` and `b/f.csv`, after the first is processed a
current ledger row named `f.csv` exists — the basename of the second
candidate — yet the run skips nothing and both are processed (two ledger
rows result). -/
theorem c3_counterexample :
    basename "b/f.csv" ∈ currentNames
      ((processFile emptyDB "a/f.csv" [["10"]] none).dbAfter) ∧
    (runFiles emptyDB ["a/f.csv", "b/f.csv"]
      (fun _ => [["10"]])).skippedOf = 0 ∧
    (runFiles emptyDB ["a/f.csv", "b/f.csv"]
      (fun _ => [["10"]])).faultOf = none ∧
    ((runFiles emptyDB ["a/f.csv", "b/f.csv"]
      (fun _ => [["10"]])).dbOf).files.length = 2 := by
  decide

/-- Claim C3, amended: a second run over the same candidate list and
contents, started from the state a successful run left (and from any
well-formed start state), changes nothing: it skips every candidate —
because every candidate's basename is current in the ledger when the run's
one-time `imported` snapshot is taken — and returns the database unchanged,
so the persisted record counts after the second run equal those after the
first.  The skip is decided against that snapshot only; a file becoming
current mid-run does not shield later same-basename candidates (see the
counterexample). -/
theorem c3_idempotent (db0 : DB) (files : List String)
    (contents : String → List Row) (db1 : DB) (n1 s1 : Nat) (hwf : db0.wf)
    (h1 : runFiles db0 files contents = .ok db1 n1 s1) :
    runFiles db1 files contents = .ok db1 0 files.length := by
  unfold runFiles at h1 ⊢
  by_cases hf : files.isEmpty
  · rw [if_pos hf] at h1 ⊢
    simp only [RunResult.ok.injEq] at h1
    obtain ⟨rfl, -, -⟩ := h1
    have h2 : files = [] := List.isEmpty_iff.mp hf
    simp [h2]
  · rw [if_neg hf] at h1 ⊢
    obtain ⟨hwf1, hmono, hprop⟩ := runFrom_ok_props files (currentNames db0)
      contents db0 none 0 0 db1 n1 s1 hwf h1
    have hall : ∀ p ∈ files, basename p ∈ currentNames db1 :=
      fun p hp => (hprop p hp).elim (fun hi => hmono _ hi) id
    have h2 := runFrom_all_skip files (currentNames db1) contents db1 none
      0 0 hall
    simpa using h2

/-- Witness for `c3_idempotent`: a concrete one-file run re-run from its
own resulting state. -/
theorem c3_idempotent_witness :
    runFiles ((runFiles emptyDB ["w.csv"] (fun _ => [["10"]])).dbOf)
        ["w.csv"] (fun _ => [["10"]]) =
      .ok ((runFiles emptyDB ["w.csv"] (fun _ => [["10"]])).dbOf) 0
        (["w.csv"] : List String).length :=
  c3_idempotent emptyDB ["w.csv"] (fun _ => [["10"]])
    ((runFiles emptyDB ["w.csv"] (fun _ => [["10"]])).dbOf) 1 0
    (by unfold DB.wf; decide) (by decide)

/-- Claim C4: importing a file named `file.csv` twice (with possibly
different contents), starting from an empty store, yields exactly two
ledger rows, both named `file.csv`; the first is superseded by the second's
id and the second is current. -/
theorem c4_supersession_chain (c1 c2 : List Row) (db1 db2 : DB)
    (j1 j2 : Option Nat) (n1 n2 : Nat) (d1 d2 : List Diag)
    (h1 : processFile emptyDB "file.csv" c1 none = .ok db1 j1 n1 d1)
    (h2 : processFile db1 "file.csv" c2 j1 = .ok db2 j2 n2 d2) :
    ∃ r1 r2, db2.files = [r1, r2] ∧
      r1.fileName = "file.csv" ∧ r2.fileName = "file.csv" ∧
      r1.supersededBy = some r2.id ∧ r2.supersededBy = none ∧
      r1.id ≠ r2.id := by
  obtain ⟨cn1, hf1, hn1⟩ := processFile_files h1
  obtain ⟨cn2, hf2, hn2⟩ := processFile_files h2
  have hb : basename "file.csv" = "file.csv" := by decide
  have he1 : db1.files = [⟨0, "file.csv", true, true, none, some cn1⟩] := by
    rw [hf1, hb]
    simp [emptyDB, newRowOf, oldsOf, supersedeOne, updOne, hb]
  have hnx : db1.nextFileId = 1 := by
    rw [hn1]
    rfl
  refine ⟨⟨0, "file.csv", true, true, some 1, some cn1⟩,
    ⟨1, "file.csv", true, true, none, some cn2⟩, ?_, rfl, rfl, rfl, rfl,
    by simp⟩
  rw [hf2, hb, he1, hnx]
  simp [emptyDB, newRowOf, oldsOf, supersedeOne, updOne, hb, hnx, he1]

/-- Witness for `c4_supersession_chain`: `file.csv` imported twice with
one-line contents of different shapes. -/
theorem c4_supersession_chain_witness :
    ∃ r1 r2, ((processFile
        (processFile emptyDB "file.csv" [["10"]] none).dbAfter "file.csv"
        [["11"]]
        (processFile emptyDB "file.csv" [["10"]] none).jAfter).dbAfter).files
        = [r1, r2] ∧
      r1.fileName = "file.csv" ∧ r2.fileName = "file.csv" ∧
      r1.supersededBy = some r2.id ∧ r2.supersededBy = none ∧
      r1.id ≠ r2.id :=
  c4_supersession_chain [["10"]] [["11"]]
    (processFile emptyDB "file.csv" [["10"]] none).dbAfter
    ((processFile
      (processFile emptyDB "file.csv" [["10"]] none).dbAfter "file.csv"
      [["11"]]
      (processFile emptyDB "file.csv" [["10"]] none).jAfter).dbAfter)
    (processFile emptyDB "file.csv" [["10"]] none).jAfter
    ((processFile
      (processFile emptyDB "file.csv" [["10"]] none).dbAfter "file.csv"
      [["11"]]
      (processFile emptyDB "file.csv" [["10"]] none).jAfter).jAfter)
    (processFile emptyDB "file.csv" [["10"]] none).recCount
    ((processFile
      (processFile emptyDB "file.csv" [["10"]] none).dbAfter "file.csv"
      [["11"]]
      (processFile emptyDB "file.csv" [["10"]] none).jAfter).recCount)
    (processFile emptyDB "file.csv" [["10"]] none).diagsOf
    ((processFile
      (processFile emptyDB "file.csv" [["10"]] none).dbAfter "file.csv"
      [["11"]]
      (processFile emptyDB "file.csv" [["10"]] none).jAfter).diagsOf)
    (by decide) (by decide)

/-- Claim C5, counterexample: the claim says the new ledger row and the
supersession of the old rows are committed together, so that after
`beginImport` at most one current row per basename is observable.  On the
code `File.__init__` commits the new row at once and only marks the old
rows in the session: starting from a store holding one current `f.csv`
row, the state committed when `File.__init__` returns holds two current
rows named `f.csv`. -/
theorem c5_counterexample :
    currentCount ((fileInit "f.csv"
      ⟨[⟨0, "f.csv", true, true, none, some initCounts⟩], 1, []⟩).1).files
      "f.csv" = 2 := by
  decide

/-- Claim C5, amended: `beginImport` creates the new row with `CreateStart`
set and `CreateEnd` absent and commits it immediately; the
`supersededByFileId` marks on the prior current rows stay pending in the
session and are durable only from the file's next commit — between the two
commits the old rows and the new row are simultaneously current.  Once the
pending marks are applied, exactly one current row with that basename
remains: the new one. -/
theorem c5_deferred_supersession (db : DB) (name : String) (hwf : db.wf)
    (hb : basename name = name) :
    (∃ nr, (fileInit name db).1.files.getLast? = some nr ∧
      nr.id = (fileInit name db).2.1 ∧ nr.createStart = true ∧
      nr.createEnd = false ∧ nr.supersededBy = none ∧ nr.fileName = name) ∧
    currentCount (applySupersede (fileInit name db).1.files
      (fileInit name db).2.2 (fileInit name db).2.1) name = 1 := by
  constructor
  · refine ⟨newRowOf db name, ?_, rfl, rfl, rfl, rfl, ?_⟩
    · rw [fileInit_eq]
      exact List.getLast?_concat _
    · show basename name = name
      exact hb
  · rw [fileInit_eq]
    show currentCount ((db.files ++ [newRowOf db name]).map
      (supersedeOne (oldsOf db name) db.nextFileId)) name = 1
    unfold currentCount
    rw [List.map_append, List.filter_append, List.length_append]
    have hA : ((db.files.map (supersedeOne (oldsOf db name)
        db.nextFileId)).filter
        (fun r => r.fileName == name && r.supersededBy.isNone)) = [] := by
      rw [List.filter_eq_nil_iff]
      intro x hx
      obtain ⟨r, hr, rfl⟩ := List.mem_map.mp hx
      by_cases hc : (oldsOf db name).contains r.id = true
      · rw [supersedeOne_hit _ _ _ hc]
        simp
      · rw [supersedeOne_miss _ _ _ (Bool.eq_false_iff.mpr hc)]
        intro hp
        simp only [Bool.and_eq_true, beq_iff_eq,
          Option.isNone_iff_eq_none] at hp
        exact hc (mem_oldsOf_of_current hr hp.1 hp.2)
    have hB : supersedeOne (oldsOf db name) db.nextFileId
        (newRowOf db name) = newRowOf db name :=
      supersedeOne_miss _ _ _ (by
        rw [show (newRowOf db name).id = db.nextFileId from rfl]
        exact oldsOf_not_nextId db name hwf)
    rw [hA, List.map_cons, List.map_nil, hB]
    simp [newRowOf, hb]

/-- Witness for `c5_deferred_supersession` at a store holding one current
row named `f.csv`. -/
theorem c5_deferred_supersession_witness :
    (∃ nr, (fileInit "f.csv"
        ⟨[⟨0, "f.csv", true, true, none, some initCounts⟩], 1,
        []⟩).1.files.getLast? = some nr ∧
      nr.id = (fileInit "f.csv"
        ⟨[⟨0, "f.csv", true, true, none, some initCounts⟩], 1, []⟩).2.1 ∧
      nr.createStart = true ∧ nr.createEnd = false ∧
      nr.supersededBy = none ∧ nr.fileName = "f.csv") ∧
    currentCount (applySupersede (fileInit "f.csv"
        ⟨[⟨0, "f.csv", true, true, none, some initCounts⟩], 1,
        []⟩).1.files
      (fileInit "f.csv"
        ⟨[⟨0, "f.csv", true, true, none, some initCounts⟩], 1, []⟩).2.2
      (fileInit "f.csv"
        ⟨[⟨0, "f.csv", true, true, none, some initCounts⟩], 1, []⟩).2.1)
      "f.csv" = 1 :=
  c5_deferred_supersession
    ⟨[⟨0, "f.csv", true, true, none, some initCounts⟩], 1, []⟩ "f.csv"
    (by unfold DB.wf; decide) (by decide)
